import Mathlib

/-!
# Verification of the `containers` repository

A shallow embedding, in Lean 4, of the data structures of the `containers`
repository (a collection of concurrent in-memory containers written in C),
together with theorems settling the frozen claims about them.

Conventions of the embedding:

* machine integers are modelled as `Nat` (`size_t`, `uint64_t`) or `Int`
  (`int_fast32_t`), with explicit `% 2 ^ 64` or `% 2 ^ 32` wherever the C
  arithmetic can wrap or truncate;
* pointers to user objects (`void *`) are modelled as `Nat` identifiers,
  with `Option Nat` where `NULL` is a possible value;
* the non-cryptographic hash (Murmur3) is out of scope per the spec
  ("treat as a pure `bytes → u32` function"): every operation that hashes
  takes the hash function as an explicit parameter;
* single-threaded executions are modelled: a pthread mutex / rwlock
  acquisition that can never succeed (the lock is already held and no other
  thread exists to release it) is modelled by an `Option` result of `none`;
* a C `assert` failure or other crash is likewise modelled by `none` or a
  dedicated result constructor.
-/

set_option autoImplicit false

namespace Containers

/-! ## `src/sync/rwlock.c` — write-preferring reader/writer lock

State: two signed atomic counters (`int_fast32_t`).  The embedded plain
mutex only serializes writers; for the single-writer traces below it is
uncontended and not represented.  The two condition-variable events are
identified by name, and each operation reports which event (if any) it
posts or waits on. -/

/-- The maximum number of concurrent readers (`MAX_READERS = 1 << 30`). -/
def MAX_READERS : Int := 2 ^ 30

/-- The two events embedded in an `rwlock_t`: `reader_release` and
`writer_release`. -/
inductive RwEvent where
  | readerRelease
  | writerRelease
  deriving DecidableEq, Repr

/-- The counters of an `rwlock_t` after `rwlock_init`: `n_pending` and
`readers_departing`, both zero-initialized. -/
structure Rwlock where
  nPending : Int
  readersDeparting : Int
  deriving DecidableEq, Repr

/-- `rwlock_init`: both counters start at zero. -/
def rwlockInit : Rwlock := { nPending := 0, readersDeparting := 0 }

/-- `rwlock_lock_read`: fetch-add 1 to `n_pending`; if the new value is
negative the reader waits on the `reader_release` event (reported as
`some readerRelease`). -/
def rwlockLockRead (lock : Rwlock) : Rwlock × Option RwEvent :=
  let n := lock.nPending + 1
  let lock := { lock with nPending := n }
  if n < 0 then (lock, some RwEvent.readerRelease) else (lock, none)

/-- `rwlock_unlock_read`: fetch-sub 1 from `n_pending`; if the new value is
negative, fetch-sub 1 from `readers_departing`, and if that yields zero the
source posts the `reader_release` event (the second component reports the
event posted, if any). -/
def rwlockUnlockRead (lock : Rwlock) : Rwlock × Option RwEvent :=
  let n := lock.nPending - 1
  let lock := { lock with nPending := n }
  if n < 0 then
    let d := lock.readersDeparting - 1
    let lock := { lock with readersDeparting := d }
    if d = 0 then (lock, some RwEvent.readerRelease) else (lock, none)
  else (lock, none)

/-- `rwlock_lock_write` (with the internal writer mutex uncontended):
fetch-sub `MAX_READERS` from `n_pending`, recover the prior reader count
`r`; if `r ≠ 0`, fetch-add `r` into `readers_departing`, and if the result
is non-zero the writer waits on the `writer_release` event (reported as
`some writerRelease`). -/
def rwlockLockWrite (lock : Rwlock) : Rwlock × Option RwEvent :=
  let n := lock.nPending - MAX_READERS
  let r := n + MAX_READERS
  let lock := { lock with nPending := n }
  if r ≠ 0 then
    let d := lock.readersDeparting + r
    let lock := { lock with readersDeparting := d }
    if d ≠ 0 then (lock, some RwEvent.writerRelease) else (lock, none)
  else (lock, none)

/-- `rwlock_unlock_write`: add `MAX_READERS` back into `n_pending` and
broadcast the `reader_release` event. -/
def rwlockUnlockWrite (lock : Rwlock) : Rwlock × RwEvent :=
  ({ lock with nPending := lock.nPending + MAX_READERS }, RwEvent.readerRelease)

end Containers

namespace Containers

/-! ## `src/rcu/gc.c` — the RCU garbage-collection engine

The refcount list (`list_head_t ref_counts`, an intrusive doubly-linked
list) is modelled as a `List` of entries in list order; the deferred
priority queue (`queue_t`, a sorted singly-linked list) is modelled as a
`List` of records in queue order.  Deleters are not called through
function pointers in the model: invoking the single configured deleter on
an object is recorded by the object's identifier. -/

/-- A `ref_count_t` entry: a generation number and its reader count. -/
structure RefCountEntry where
  generation : Nat
  count : Nat
  deriving DecidableEq, Repr

/-- A `deferred_t` record: the object to destroy and the generation in
which it became garbage (the deleter function pointer is elided: the model
records invocations by object identifier). -/
structure DeferredRecord where
  obj : Nat
  generation : Nat
  deriving DecidableEq, Repr

/-- The engine state `struct gc`. -/
structure GcState where
  currentGeneration : Nat
  lastGcGen : Nat
  refCounts : List RefCountEntry
  deferred : List DeferredRecord
  deriving DecidableEq, Repr

/-- `gc_new` (with all allocations succeeding): both generation counters
zero, the deferred queue empty, and the refcount list seeded with the
single entry for generation `0`. -/
def gcNew : GcState :=
  { currentGeneration := 0
    lastGcGen := 0
    refCounts := [{ generation := 0, count := 0 }]
    deferred := [] }

/-- `list_find(&gc->ref_counts.head, find_rc_by_generation, generation)`:
the first refcount entry for `generation`, or `none` when the list holds
no entry for it. -/
def findRcByGeneration (generation : Nat) (refCounts : List RefCountEntry) :
    Option RefCountEntry :=
  refCounts.find? (fun rc => rc.generation == generation)

/-- Replace the first refcount entry for `generation` by `f` applied to it
(the source mutates the entry returned by `list_find` in place). -/
def updateRcByGeneration (generation : Nat) (f : RefCountEntry → RefCountEntry) :
    List RefCountEntry → List RefCountEntry
  | [] => []
  | rc :: rest =>
    if rc.generation == generation then f rc :: rest
    else rc :: updateRcByGeneration generation f rest

/-- `gc_get_generation`: atomic load of `current_generation`. -/
def gcGetGeneration (gc : GcState) : Nat :=
  gc.currentGeneration

/-- `gc_inc_generation`: atomic fetch-add 1 on `current_generation`,
returning the prior value.  Nothing else in the state is touched — in
particular no refcount entry is created for the new generation. -/
def gcIncGeneration (gc : GcState) : Nat × GcState :=
  (gc.currentGeneration, { gc with currentGeneration := gc.currentGeneration + 1 })

/-- `gc_inc_rc`: look up the refcount entry for `generation` and increment
its count.  The source asserts the entry exists (`assert(rc != NULL)`);
the model returns `none` when the assertion fails. -/
def gcIncRc (gc : GcState) (generation : Nat) : Option GcState :=
  match findRcByGeneration generation gc.refCounts with
  | none => none
  | some _ =>
    some { gc with
      refCounts := updateRcByGeneration generation
        (fun rc => { rc with count := rc.count + 1 }) gc.refCounts }

/-- `gc_dec_rc`: look up the refcount entry for `generation`, decrement
its count, and post the `generation_complete` event when it reaches zero
(reported by the `Bool`).  As in `gc_inc_rc`, a missing entry is an
assertion failure, modelled by `none`. -/
def gcDecRc (gc : GcState) (generation : Nat) : Option (GcState × Bool) :=
  match findRcByGeneration generation gc.refCounts with
  | none => none
  | some rc =>
    let newCount := rc.count - 1
    some ({ gc with
      refCounts := updateRcByGeneration generation
        (fun rc => { rc with count := rc.count - 1 }) gc.refCounts },
      newCount == 0)

/-- `gc_rc_for_generation`: the count stored in the refcount entry for
`generation`; `none` models the assertion failure when no entry exists. -/
def gcRcForGeneration (gc : GcState) (generation : Nat) : Option Nat :=
  match findRcByGeneration generation gc.refCounts with
  | none => none
  | some rc => some rc.count

/-- `make_deferred`: allocate a deferred record; `allocOk = false` models
`malloc` returning `NULL`. -/
def makeDeferred (allocOk : Bool) (obj generation : Nat) : Option DeferredRecord :=
  if allocOk then some { obj := obj, generation := generation } else none

/-- `queue_push` of `src/rcu/priority_queue.c` with the
`prioritize_by_generation` policy (`d1.generation <= d2.generation`): walk
past every record whose generation is `≤` the new record's generation and
insert there (stable for equal generations). -/
def queuePush (item : DeferredRecord) : List DeferredRecord → List DeferredRecord
  | [] => [item]
  | curr :: rest =>
    if curr.generation ≤ item.generation then curr :: queuePush item rest
    else item :: curr :: rest

/-- `gc_defer_destroy`: record the current generation, allocate the
deferred record, and push it onto the queue.  When allocation fails the
function just returns (the C function has return type `void`, so no error
is reported).  The second component lists the deleter invocations
performed by the call (always none). -/
def gcDeferDestroy (gc : GcState) (obj : Nat) (allocOk : Bool) : GcState × List Nat :=
  match makeDeferred allocOk obj (gcGetGeneration gc) with
  | none => (gc, [])
  | some deferredRecord => ({ gc with deferred := queuePush deferredRecord gc.deferred }, [])

/-- The drain loop of `gc_collect_through_generation`: repeatedly
`queue_pop_if(gc->deferred, generation_is, last_gc_gen)` while the head of
the queue has exactly generation `g`, invoking the deleter on each popped
record.  Returns the invoked objects in order and the remaining queue. -/
def drainGeneration (g : Nat) (q : List DeferredRecord) : List Nat × List DeferredRecord :=
  ((q.takeWhile (fun d => d.generation == g)).map (fun d => d.obj),
   q.dropWhile (fun d => d.generation == g))

/-- Result of a `gc_collect_through_generation` call in a single-threaded
execution. -/
inductive CollectResult where
  /-- The call returned; `invoked` lists, in order, the objects whose
  deleters it invoked. -/
  | done (gc : GcState) (invoked : List Nat)
  /-- The call is stuck in `event_wait(&gc->generation_complete)` for
  generation `g` whose refcount is non-zero (no other thread exists to
  decrement it). -/
  | blocked (g : Nat)
  /-- The refcount entry for generation `g` is missing: the `assert` in
  `gc_rc_for_generation` fires. -/
  | assertFail (g : Nat)
  deriving DecidableEq, Repr

/-- The loop of `gc_collect_through_generation`, with explicit fuel.  Each
iteration handles generation `last_gc_gen`: wait for its refcount to drop
to zero, drain its deferred records, unlink its refcount entry, and
advance `last_gc_gen`.  The loop runs while `last_gc_gen < target`, hence
`target - last_gc_gen` fuel is exactly enough (see
`gcCollectThroughGeneration`). -/
def collectLoop (target : Nat) (gc : GcState) : Nat → CollectResult
  | 0 => .done gc []
  | fuel + 1 =>
    if gc.lastGcGen < target then
      match findRcByGeneration gc.lastGcGen gc.refCounts with
      | none => .assertFail gc.lastGcGen
      | some rc =>
        if 0 < rc.count then .blocked gc.lastGcGen
        else
          let drained := drainGeneration gc.lastGcGen gc.deferred
          let gc' : GcState :=
            { gc with
              deferred := drained.2
              refCounts := gc.refCounts.eraseP (fun rc => rc.generation == gc.lastGcGen)
              lastGcGen := gc.lastGcGen + 1 }
          match collectLoop target gc' fuel with
          | .done gc'' invoked => .done gc'' (drained.1 ++ invoked)
          | r => r
    else .done gc []

/-- `gc_collect_through_generation(gc, target)`. -/
def gcCollectThroughGeneration (gc : GcState) (target : Nat) : CollectResult :=
  collectLoop target gc (target - gc.lastGcGen)

/-- `rcu_synchronize` of `src/rcu/rcu.c`: fetch-add the generation
(obtaining the prior value `prev_gen`) and collect through `prev_gen`. -/
def rcuSynchronize (gc : GcState) : CollectResult :=
  let r := gcIncGeneration gc
  gcCollectThroughGeneration r.2 r.1

end Containers

namespace Containers

/-! ## `src/flat-map/flat_map.c` — page-partitioned open-addressing map

The cell array is a `List` of cells of length `n_pages * cells_per_page`.
Locks guard concurrency only and have no effect on a single-threaded
execution, so they are not represented.  `size_t` subtraction and the
`uint32_t` truncation of `find_at` / `remove_at`'s `key` parameter are
modelled explicitly.  Out-of-bounds cell reads (possible when
`n_pages = 0`, see claim C10) are undefined behavior in C; the model makes
them explicit through an `oob` valuation supplying the bytes such a read
would observe. -/

/-- `EMPTY_KEY = 0`. -/
def EMPTY_KEY : Nat := 0

/-- `TOMBSTONE_KEY = ~0` at type `uint32_t`, i.e. `2 ^ 32 - 1`.  (Stored
into the `uint64_t` cell key it is zero-extended, so a tombstone cell's
key is `2 ^ 32 - 1`, not 64-bit all-ones.) -/
def TOMBSTONE_KEY : Nat := 2 ^ 32 - 1

/-- A `cell_t`: a 64-bit key and a value pointer (`none` = `NULL`). -/
structure Cell where
  key : Nat
  value : Option Nat
  deriving DecidableEq, Repr

/-- A cell as initialized by `initialize_cells`: empty key, `NULL` value. -/
def emptyCell : Cell := { key := EMPTY_KEY, value := none }

/-- A `flat_map_t` (the locks carry no single-threaded state). -/
structure FlatMap where
  cells : List Cell
  nPages : Nat
  cellsPerPage : Nat
  occupiedCells : Nat
  deriving DecidableEq, Repr

/-- `is_power_of_two`. -/
def isPowerOfTwo (n : Nat) : Bool :=
  n != 0 && Nat.land n (n - 1) == 0

/-- `size_t` subtraction of one: `n - 1` wraps to `2 ^ 64 - 1` at `n = 0`. -/
def subOne64 (n : Nat) : Nat :=
  (n + (2 ^ 64 - 1)) % 2 ^ 64

/-- `get_capacity`: `n_pages * cells_per_page`. -/
def getCapacity (m : FlatMap) : Nat :=
  m.nPages * m.cellsPerPage

/-- `get_cell_index_for_hash`: `hash & (capacity - 1)`, with the `size_t`
wrap of `capacity - 1` at capacity zero. -/
def getCellIndexForHash (m : FlatMap) (hash : Nat) : Nat :=
  Nat.land hash (subOne64 (getCapacity m))

/-- `get_page_index_for_hash`: the cell index divided by the page size. -/
def getPageIndexForHash (m : FlatMap) (hash : Nat) : Nat :=
  getCellIndexForHash m hash / m.cellsPerPage

/-- Read `map->cells[i]`: in bounds it is the stored cell; out of bounds
the read observes the unspecified bytes `oob i`. -/
def readCell (cells : List Cell) (oob : Nat → Cell) (i : Nat) : Cell :=
  (cells.get? i).getD (oob i)

/-- `need_resize`: `occupied_cells >= capacity * 0.75`, computed exactly
(every capacity is a power of two `≥ 4`, for which the float product is
exact). -/
def needResize (occupiedCells capacity : Nat) : Bool :=
  4 * occupiedCells ≥ 3 * capacity

/-- The exclusive end index of the page scan that starts at `cellIndex`
(`cell_index + (cells_per_page - index_in_page)`). -/
def pageEndIndex (cellsPerPage cellIndex : Nat) : Nat :=
  cellIndex + (cellsPerPage - cellIndex % cellsPerPage)

/-- The scan loop of `insert_at` over the cells of one page, from `i` for
`remaining = end_index - i` further cells: the first matching key has its
value replaced (the old value is returned through the out parameter,
modelled as always supplied); the first empty cell receives the pair.
Returns the updated cells, the `inserted` flag, the replaced value, and
`continue_search`. -/
def insertAtGo (oob : Nat → Cell) (key : Nat) (value : Option Nat)
    (cells : List Cell) (i : Nat) :
    Nat → List Cell × Bool × Option Nat × Bool
  | 0 => (cells, false, none, true)
  | remaining + 1 =>
    let cell := readCell cells oob i
    if cell.key == key then
      (cells.set i { cell with value := value }, true, cell.value, false)
    else if cell.key == EMPTY_KEY then
      (cells.set i { key := key, value := value }, true, none, false)
    else
      insertAtGo oob key value cells (i + 1) remaining

/-- `insert_at`: scan the `end_index - cell_index` cells from `cell_index`
to the end of its page. -/
def insertAt (oob : Nat → Cell) (m : FlatMap) (cellIndex : Nat)
    (key : Nat) (value : Option Nat) :
    List Cell × Bool × Option Nat × Bool :=
  insertAtGo oob key value m.cells cellIndex
    (pageEndIndex m.cellsPerPage cellIndex - cellIndex)

/-- Result of a flat-map operation in the model: `ok` carries the final
map, the success flag and the replaced value; `divByZero` marks the
execution reaching `(page_index + 1) % n_pages` with `n_pages = 0`
(SIGFPE in C); `stuck` marks fuel exhaustion (unreachable when the fuel
covers one full revolution of the pages). -/
inductive FlatMapResult where
  | ok (m : FlatMap) (success : Bool) (replaced : Option Nat)
  | divByZero
  | stuck
  deriving DecidableEq, Repr

/-- The page-walk (`do … while (cell_index != init_cell_index)`) loop of
`flat_map_insert`. -/
def insertLoop (oob : Nat → Cell) (key : Nat) (value : Option Nat)
    (m : FlatMap) (pageIndex cellIndex initCellIndex : Nat) :
    Nat → FlatMapResult
  | 0 => .stuck
  | fuel + 1 =>
    let r := insertAt oob m cellIndex key value
    let m := { m with cells := r.1 }
    if ¬ r.2.2.2 then .ok m r.2.1 r.2.2.1
    else if m.nPages == 0 then .divByZero
    else
      let pageIndex := (pageIndex + 1) % m.nPages
      let cellIndex := pageIndex * m.cellsPerPage
      if cellIndex == initCellIndex then .ok m r.2.1 r.2.2.1
      else insertLoop oob key value m pageIndex cellIndex initCellIndex fuel

/-- One reinsertion of `resize_map`: `do { insert_at(...); advance page }
while (continue_search)` — note the source checks only `continue_search`,
not a full revolution, so the fuel bounds the walk. -/
def resizeReinsert (oob : Nat → Cell) (key : Nat) (value : Option Nat)
    (m : FlatMap) (pageIndex cellIndex : Nat) : Nat → Option (List Cell)
  | 0 => none
  | fuel + 1 =>
    let r := insertAt oob m cellIndex key value
    if ¬ r.2.2.2 then some r.1
    else if m.nPages == 0 then none
    else
      let pageIndex := (pageIndex + 1) % m.nPages
      let cellIndex := pageIndex * m.cellsPerPage
      resizeReinsert oob key value { m with cells := r.1 } pageIndex cellIndex fuel

/-- `resize_map` (under the exclusive map lock): re-check the load factor,
double the page count, move every live cell of the old array into a fresh
array of doubled capacity, and reset `occupied_cells` to zero (the
reinsertion loop calls `insert_at` directly and never increments it). -/
def resizeMap (hash : Nat → Nat) (oob : Nat → Cell) (m : FlatMap) : Option FlatMap :=
  let capacity := getCapacity m
  if ¬ needResize m.occupiedCells capacity then some m
  else
    let newNPages := m.nPages * 2
    let newCapacity := newNPages * m.cellsPerPage
    let init : FlatMap :=
      { cells := List.replicate newCapacity emptyCell
        nPages := newNPages
        cellsPerPage := m.cellsPerPage
        occupiedCells := 0 }
    ((List.range capacity).foldlM (fun (acc : FlatMap) i =>
      let cell := readCell m.cells oob i
      if cell.key == EMPTY_KEY || cell.key == TOMBSTONE_KEY then some acc
      else
        let h := hash cell.key
        let cellIndex := getCellIndexForHash acc h
        let pageIndex := getPageIndexForHash acc h
        (resizeReinsert oob cell.key cell.value acc pageIndex cellIndex
          (acc.nPages + 1)).map (fun cs => { acc with cells := cs })) init)

/-- `flat_map_insert` (single-threaded; `map != NULL`).  The key is the
full 64-bit value: `insert_at` receives it untruncated
(`map_key_t key`). -/
def flatMapInsert (hash : Nat → Nat) (oob : Nat → Cell) (m : FlatMap)
    (key : Nat) (value : Option Nat) : FlatMapResult :=
  if key == 0 then .ok m false none
  else
    let capacity := getCapacity m
    match (if needResize (m.occupiedCells + 1) capacity
           then resizeMap hash oob m else some m) with
    | none => .stuck
    | some m =>
      let h := hash key
      let cellIndex := getCellIndexForHash m h
      let pageIndex := getPageIndexForHash m h
      let initCellIndex := pageIndex * m.cellsPerPage
      match insertLoop oob key value m pageIndex cellIndex initCellIndex (m.nPages + 1) with
      | .ok m inserted replaced =>
        .ok (if inserted then { m with occupiedCells := m.occupiedCells + 1 } else m)
          inserted replaced
      | r => r

/-- The scan loop of `find_at` over the cells of one page.  Its `key`
parameter is declared `uint32_t` in the source, so callers pass the 64-bit
key truncated; the comparison against the 64-bit cell key zero-extends it
back.  Returns the value found and `continue_search`. -/
def findAtGo (oob : Nat → Cell) (key32 : Nat) (cells : List Cell)
    (i : Nat) : Nat → Option Nat × Bool
  | 0 => (none, true)
  | remaining + 1 =>
    let cell := readCell cells oob i
    if cell.key == key32 then (cell.value, false)
    else if cell.key == EMPTY_KEY then (none, false)
    else findAtGo oob key32 cells (i + 1) remaining

/-- `find_at`. -/
def findAt (oob : Nat → Cell) (m : FlatMap) (cellIndex key32 : Nat) :
    Option Nat × Bool :=
  findAtGo oob key32 m.cells cellIndex
    (pageEndIndex m.cellsPerPage cellIndex - cellIndex)

/-- Result of `flat_map_find` in the model (`divByZero` / `stuck` as in
`FlatMapResult`). -/
inductive FindResult where
  | ok (value : Option Nat)
  | divByZero
  | stuck
  deriving DecidableEq, Repr

/-- The page-walk loop of `flat_map_find`. -/
def findLoop (oob : Nat → Cell) (key32 : Nat) (m : FlatMap)
    (pageIndex cellIndex initCellIndex : Nat) : Nat → FindResult
  | 0 => .stuck
  | fuel + 1 =>
    let r := findAt oob m cellIndex key32
    if ¬ r.2 then .ok r.1
    else if m.nPages == 0 then .divByZero
    else
      let pageIndex := (pageIndex + 1) % m.nPages
      let cellIndex := pageIndex * m.cellsPerPage
      if cellIndex == initCellIndex then .ok r.1
      else findLoop oob key32 m pageIndex cellIndex initCellIndex fuel

/-- `flat_map_find` (single-threaded; `map != NULL`).  The hash is
computed from the full 64-bit key, but `find_at` receives the key through
its `uint32_t` parameter: `key % 2 ^ 32`. -/
def flatMapFind (hash : Nat → Nat) (oob : Nat → Cell) (m : FlatMap)
    (key : Nat) : FindResult :=
  if key == 0 then .ok none
  else
    let h := hash key
    let cellIndex := getCellIndexForHash m h
    let pageIndex := getPageIndexForHash m h
    let initCellIndex := pageIndex * m.cellsPerPage
    findLoop oob (key % 2 ^ 32) m pageIndex cellIndex initCellIndex (m.nPages + 1)

/-- The scan loop of `remove_at` (whose `key` parameter is likewise
`uint32_t`): a matching cell has its value deleted and its key overwritten
with the tombstone.  `occupied_cells` is not touched. -/
def removeAtGo (oob : Nat → Cell) (key32 : Nat) (cells : List Cell)
    (i : Nat) : Nat → List Cell × Bool × Bool
  | 0 => (cells, false, true)
  | remaining + 1 =>
    let cell := readCell cells oob i
    if cell.key == key32 then
      (cells.set i { key := TOMBSTONE_KEY, value := none }, true, false)
    else if cell.key == EMPTY_KEY then (cells, false, false)
    else removeAtGo oob key32 cells (i + 1) remaining

/-- `remove_at`. -/
def removeAt (oob : Nat → Cell) (m : FlatMap) (cellIndex key32 : Nat) :
    List Cell × Bool × Bool :=
  removeAtGo oob key32 m.cells cellIndex
    (pageEndIndex m.cellsPerPage cellIndex - cellIndex)

/-- The page-walk loop of `flat_map_remove`. -/
def removeLoop (oob : Nat → Cell) (key32 : Nat) (m : FlatMap)
    (pageIndex cellIndex initCellIndex : Nat) : Nat → FlatMapResult
  | 0 => .stuck
  | fuel + 1 =>
    let r := removeAt oob m cellIndex key32
    let m := { m with cells := r.1 }
    if ¬ r.2.2 then .ok m r.2.1 none
    else if m.nPages == 0 then .divByZero
    else
      let pageIndex := (pageIndex + 1) % m.nPages
      let cellIndex := pageIndex * m.cellsPerPage
      if cellIndex == initCellIndex then .ok m r.2.1 none
      else removeLoop oob key32 m pageIndex cellIndex initCellIndex fuel

/-- `flat_map_remove` (single-threaded; `map != NULL`). -/
def flatMapRemove (hash : Nat → Nat) (oob : Nat → Cell) (m : FlatMap)
    (key : Nat) : FlatMapResult :=
  if key == 0 then .ok m false none
  else
    let h := hash key
    let cellIndex := getCellIndexForHash m h
    let pageIndex := getPageIndexForHash m h
    let initCellIndex := pageIndex * m.cellsPerPage
    removeLoop oob (key % 2 ^ 32) m pageIndex cellIndex initCellIndex (m.nPages + 1)

/-- `flat_map_new` (with allocations succeeding): `page_size` must be a
power of two and the deleter non-`NULL`; the initial capacity is 16 cells
and the page count `16 / page_size` (`size_t` division). -/
def flatMapNew (pageSize : Nat) (deleterNonNull : Bool) : Option FlatMap :=
  if ¬ isPowerOfTwo pageSize || ¬ deleterNonNull then none
  else
    some { cells := List.replicate 16 emptyCell
           nPages := 16 / pageSize
           cellsPerPage := pageSize
           occupiedCells := 0 }

/-- A cell counted by `occupied_cells` according to the spec: occupied or
tombstone, i.e. not empty. -/
def isOccupiedOrTombstone (c : Cell) : Bool :=
  c.key != EMPTY_KEY

/-- Projection of a `FlatMapResult` to the resulting map. -/
def resultMap : FlatMapResult → Option FlatMap
  | .ok m _ _ => some m
  | _ => none

/-- Projection of a `FlatMapResult` to the success flag. -/
def resultFlag : FlatMapResult → Option Bool
  | .ok _ b _ => some b
  | _ => none

end Containers

namespace Containers

/-! ## `src/cuckoo/cuckoo.c` — single-threaded two-table cuckoo map

The two internal tables are `List`s of slots.  The hash takes the key and
the seed (the table index).  The source loads `tables[i][index]` into a
local `slot_t slot` and, on the empty-slot and key-collision paths of
`cuckoo_insert` (as in `insert_into_free_slot` and the eviction swap),
writes the key and value into that local copy — the table itself is never
written; the model reproduces this faithfully. -/

/-- A `slot_t`: a 64-bit key and a value pointer (`none` = `NULL`). -/
structure Slot where
  key : Nat
  value : Option Nat
  deriving DecidableEq, Repr

/-- A slot as initialized by `initialize_table`. -/
def emptySlot : Slot := { key := 0, value := none }

/-- A `cuckoo_map_t` with its two tables (`N_TABLES = 2`). -/
structure CuckooMap where
  table0 : List Slot
  table1 : List Slot
  tableCapacity : Nat
  nResize : Nat
  nItems : Nat
  deriving DecidableEq, Repr

/-- `map->tables[i]` (the source only ever indexes with `0` or `1`). -/
def CuckooMap.table (m : CuckooMap) : Nat → List Slot
  | 0 => m.table0
  | _ => m.table1

/-- `cuckoo_new` (with allocations succeeding and a non-`NULL` deleter):
two tables of `INITIAL_TABLE_CAPACITY = 16` empty slots. -/
def cuckooNew : CuckooMap :=
  { table0 := List.replicate 16 emptySlot
    table1 := List.replicate 16 emptySlot
    tableCapacity := 16
    nResize := 0
    nItems := 0 }

/-- Read `tables[i][index]`; indices computed as `hash & (capacity - 1)`
are always in bounds, so the out-of-range default is immaterial. -/
def readSlot (table : List Slot) (index : Nat) : Slot :=
  (table.get? index).getD emptySlot

/-- `hash & (capacity - 1)` for table `i` and key `key`. -/
def cuckooIndex (hash : Nat → Nat → Nat) (capacity key i : Nat) : Nat :=
  Nat.land (hash key i) (capacity - 1)

/-- The `for (i = 0; i < N_TABLES; ++i)` probe of `cuckoo_insert`: at each
table, an empty slot or a matching key makes the function return `true` —
but the writes land in the local `slot` copy, so the map is returned
unchanged.  `none` means the loop fell through to the eviction path.  The
third component is the out parameter (`outProvided` models `out != NULL`;
when `out == NULL` a colliding old value is passed to the deleter
instead). -/
def cuckooTryTables (hash : Nat → Nat → Nat) (m : CuckooMap)
    (key : Nat) (value : Option Nat) (outProvided : Bool) :
    List Nat → Option (Bool × CuckooMap × Option Nat)
  | [] => none
  | i :: rest =>
    let index := cuckooIndex hash m.tableCapacity key i
    let slot := readSlot (m.table i) index
    if slot.key == 0 then
      -- `slot.key = key; slot.value = value;` — writes to the local copy
      some (true, m, none)
    else if key == slot.key then
      -- `slot.value = value;` — again only the local copy
      some (true, m, if outProvided then slot.value else none)
    else
      cuckooTryTables hash m key value outProvided rest

/-- `insert_into_free_slot`: probe both tables for an empty slot; the
store again goes into a local copy, so only the `Bool` result escapes. -/
def insertIntoFreeSlot (hash : Nat → Nat → Nat) (tables : CuckooMap)
    (key : Nat) : List Nat → Bool
  | [] => false
  | i :: rest =>
    let index := cuckooIndex hash tables.tableCapacity key i
    let slot := readSlot (tables.table i) index
    if slot.key == 0 then true
    else insertIntoFreeSlot hash tables key rest

/-- The eviction loop of `insert_with_evictions` (fuel-bounded: because
the swap writes into a local slot copy the tables never change, and the C
loop need not terminate; `none` models non-termination).  Returns whether
a free slot was found before a cycle was declared. -/
def insertWithEvictions (hash : Nat → Nat → Nat) (tables : CuckooMap)
    (initKey : Nat) : Nat → Nat → Nat → Nat → Option Bool
  | _currentKey, _nEncountered, _tableIdx, 0 => none
  | currentKey, nEncountered, tableIdx, fuel + 1 =>
    let nEncountered' :=
      if currentKey == initKey then nEncountered + 1 else nEncountered
    if currentKey == initKey ∧ nEncountered ≥ 3 then some false
    else if insertIntoFreeSlot hash tables initKey [0, 1] then some true
    else
      let index := cuckooIndex hash tables.tableCapacity currentKey tableIdx
      let slot := readSlot (tables.table tableIdx) index
      -- `swap_slot` with the local copy: the table is unchanged and the
      -- unresolved key becomes the (unwritten) occupant's key
      insertWithEvictions hash tables initKey slot.key nEncountered'
        (Nat.xor tableIdx 1) fuel

/-- `cuckoo_insert` (single-threaded; `map != NULL`), with the eviction /
resize path fuel-bounded (`none` = the modelled execution did not resolve
within the fuel; unreachable from a fresh map, where the first probe finds
an empty slot).  Resizes are not modelled beyond the fuel bound because the
claims never reach them. -/
def cuckooInsert (hash : Nat → Nat → Nat) (m : CuckooMap)
    (key : Nat) (value : Option Nat) (outProvided : Bool) :
    Option (Bool × CuckooMap × Option Nat) :=
  if key == 0 then some (false, m, none)
  else
    match cuckooTryTables hash m key value outProvided [0, 1] with
    | some r => some r
    | none =>
      match insertWithEvictions hash m key key 0 0 (4 * (m.tableCapacity + 1)) with
      | some true => some (true, { m with nItems := m.nItems + 1 }, none)
      | _ => none

/-- The probe loop of `cuckoo_find`: return the slot's value on a key
match in either table, else `NULL`. -/
def cuckooFindTables (hash : Nat → Nat → Nat) (m : CuckooMap) (key : Nat) :
    List Nat → Option Nat
  | [] => none
  | i :: rest =>
    let index := cuckooIndex hash m.tableCapacity key i
    let slot := readSlot (m.table i) index
    if slot.key == key then slot.value
    else cuckooFindTables hash m key rest

/-- `cuckoo_find` (`map != NULL`). -/
def cuckooFind (hash : Nat → Nat → Nat) (m : CuckooMap) (key : Nat) :
    Option Nat :=
  if key == 0 then none
  else cuckooFindTables hash m key [0, 1]

end Containers

namespace Containers

/-! ## `src/hashmap/hashmap.c` — concurrent chaining map

Modelled with the default attributes of `hashmap_attr_default`:
`key_is_literal = true` and the default comparator (pointer-bits
equality), so keys are `Nat` identifiers compared by equality.  Each
bucket's intrusive list is a `List` of items in list order
(`list_push_front` prepends).  `n_items` is a `size_t`: its atomic
decrement wraps modulo `2 ^ 64`. -/

/-- A `bucket_item_t`: the memoized 32-bit hash, the key and the value. -/
structure BucketItem where
  hash : Nat
  key : Nat
  value : Nat
  deriving DecidableEq, Repr

/-- A `hashmap_t` (locks carry no single-threaded state). -/
structure Hashmap where
  nItems : Nat
  buckets : List (List BucketItem)
  nBuckets : Nat
  deriving DecidableEq, Repr

/-- `hashmap_new` with default attributes: `INITIAL_N_BUCKETS = 4` empty
buckets. -/
def hashmapNew : Hashmap :=
  { nItems := 0, buckets := List.replicate 4 [], nBuckets := 4 }

/-- `bucket_index`: `hash & (n_buckets - 1)`. -/
def bucketIndex (hash nBuckets : Nat) : Nat :=
  Nat.land hash (nBuckets - 1)

/-- `__atomic_sub_fetch` on a `size_t`: decrement wrapping at zero. -/
def atomicDecrement64 (n : Nat) : Nat :=
  (n + (2 ^ 64 - 1)) % 2 ^ 64

/-- `bucket_find_by_key` with the default comparator: the first item in
the bucket whose key equals the query key. -/
def bucketFindByKey (bucket : List BucketItem) (key : Nat) : Option BucketItem :=
  bucket.find? (fun item => item.key == key)

/-- `hashmap_remove` (single-threaded; `map != NULL`): find the item in
its bucket and, when present, delete the value and unlink the item.  The
source executes `atomic_decrement(&map->n_items)` unconditionally, on the
found and not-found paths alike; the model reproduces this. -/
def hashmapRemove (hash : Nat → Nat) (m : Hashmap) (key : Nat) :
    Bool × Hashmap :=
  let idx := bucketIndex (hash key) m.nBuckets
  let bucket := (m.buckets.get? idx).getD []
  let found := bucketFindByKey bucket key
  let buckets :=
    match found with
    | some _ => m.buckets.set idx (bucket.eraseP (fun item => item.key == key))
    | none => m.buckets
  (found.isSome,
   { m with buckets := buckets, nItems := atomicDecrement64 m.nItems })

/-- `hashmap_find` (single-threaded; `map != NULL`). -/
def hashmapFind (hash : Nat → Nat) (m : Hashmap) (key : Nat) : Option Nat :=
  let idx := bucketIndex (hash key) m.nBuckets
  let bucket := (m.buckets.get? idx).getD []
  (bucketFindByKey bucket key).map (fun item => item.value)

end Containers

namespace Containers

/-! ## `src/rcu_list/rcu_list.c` — RCU-protected doubly-linked list

Nodes live in an arena (`nodes : List ListNode`) addressed by allocation
index; `next` / `prev` / `head` / `tail` are `Option Nat` indices (`none`
= `NULL`).  The single writer mutex `write_lock` is a `Bool`; in a
single-threaded execution, `pthread_mutex_lock` on a (non-recursive)
mutex that is already locked blocks forever, modelled by a `none`
result. -/

/-- A `list_node_t`. -/
structure ListNode where
  deleted : Bool
  next : Option Nat
  prev : Option Nat
  data : Nat
  deriving DecidableEq, Repr

/-- An `rcu_list_t` (live list only; the zombie stack belongs to the
reader side, which the claims do not touch). -/
structure RcuList where
  writeLockHeld : Bool
  nodes : List ListNode
  head : Option Nat
  tail : Option Nat
  deriving DecidableEq, Repr

/-- `list_new` (allocations succeeding): empty list, mutex unlocked. -/
def rcuListNew : RcuList :=
  { writeLockHeld := false, nodes := [], head := none, tail := none }

/-- `lock_for_write` (`pthread_mutex_lock`): `none` when the mutex is
already held (the caller blocks forever in a single-threaded run). -/
def lockForWrite (l : RcuList) : Option RcuList :=
  if l.writeLockHeld then none else some { l with writeLockHeld := true }

/-- `unlock_for_write` (`pthread_mutex_unlock`). -/
def unlockForWrite (l : RcuList) : RcuList :=
  { l with writeLockHeld := false }

/-- Read node `i` of the arena (valid indices only in the traces used). -/
def getNode (l : RcuList) (i : Nat) : ListNode :=
  (l.nodes.get? i).getD { deleted := false, next := none, prev := none, data := 0 }

/-- Overwrite node `i` of the arena. -/
def setNode (l : RcuList) (i : Nat) (node : ListNode) : RcuList :=
  { l with nodes := l.nodes.set i node }

/-- `list_push_front` (with `make_node` succeeding): allocate the node,
take the write mutex, splice at the head, release the mutex. -/
def listPushFront (l : RcuList) (data : Nat) : Option RcuList :=
  let nodeId := l.nodes.length
  let node : ListNode := { deleted := false, next := none, prev := none, data := data }
  (lockForWrite l).map (fun l =>
    let l := { l with nodes := l.nodes ++ [node] }
    match l.head with
    | none =>
      unlockForWrite { l with head := some nodeId, tail := some nodeId }
    | some oldHead =>
      let l := setNode l nodeId { node with next := some oldHead }
      let l := setNode l oldHead { getNode l oldHead with prev := some nodeId }
      unlockForWrite { l with head := some nodeId })

/-- `list_push_back` (with `make_node` succeeding). -/
def listPushBack (l : RcuList) (data : Nat) : Option RcuList :=
  let nodeId := l.nodes.length
  let node : ListNode := { deleted := false, next := none, prev := none, data := data }
  (lockForWrite l).map (fun l =>
    let l := { l with nodes := l.nodes ++ [node] }
    match l.tail with
    | none =>
      unlockForWrite { l with head := some nodeId, tail := some nodeId }
    | some oldTail =>
      let l := setNode l nodeId { node with prev := some oldTail }
      let l := setNode l oldTail { getNode l oldTail with next := some nodeId }
      unlockForWrite { l with tail := some nodeId })

/-- `list_erase` (`list != NULL`): a `NULL` iterator returns before the
mutex is taken; otherwise the write mutex is acquired, the node is marked
deleted and unlinked (or, if already marked, nothing is done) — and the
function returns on every path without calling `unlock_for_write`. -/
def listErase (l : RcuList) (iter : Option Nat) : Option RcuList :=
  match iter with
  | none => some l
  | some entry =>
    (lockForWrite l).map (fun l =>
      let node := getNode l entry
      if node.deleted then l
      else
        let l := setNode l entry { node with deleted := true }
        let oldPrev := node.prev
        let oldNext := node.next
        let l :=
          match oldPrev with
          | none => { l with head := oldNext }
          | some p => setNode l p { getNode l p with next := oldNext }
        match oldNext with
        | none => { l with tail := oldPrev }
        | some n => setNode l n { getNode l n with prev := oldPrev })

end Containers

namespace Containers

/-! ## Shared helper lemmas -/

/-- Reading any index of a replicated list, with the replicated element as
the out-of-range default, yields that element. -/
theorem getD_get?_replicate {α : Type} (n i : Nat) (a : α) :
    ((List.replicate n a).get? i).getD a = a := by
  rw [List.get?_eq_getElem?, List.getElem?_replicate]
  split <;> rfl

end Containers

namespace Containers

/-! ## Theorems for the claims -/

/-- C1: the RCU engine does *not* maintain the refcount-list invariant.
`gc_inc_generation` only fetch-adds `current_generation`; no refcount
entry is ever created for the new generation (only `gc_new` ever pushes
one, for generation 0).  Immediately after `gc_inc_generation` on a fresh
engine, the interval `[last_gc_gen, current_generation]` is `[0, 1]`, yet
the refcount list has no entry for generation 1, and `gc_inc_rc` /
`gc_dec_rc` on the new current generation hit the `assert(rc != NULL)`
failure (modelled by `none`). -/
theorem gc_refcount_entry_missing_after_inc_generation :
    (gcIncGeneration gcNew).2.currentGeneration = 1 ∧
    (gcIncGeneration gcNew).2.lastGcGen = 0 ∧
    findRcByGeneration 1 (gcIncGeneration gcNew).2.refCounts = none ∧
    gcIncRc (gcIncGeneration gcNew).2 1 = none ∧
    gcDecRc (gcIncGeneration gcNew).2 1 = none := by
  decide

/-- C2: the last departing reader posts the *reader*-release event, not
the writer-release event the blocked writer waits on.  Trace: one reader
acquires; a writer enters `rwlock_lock_write` and blocks waiting on the
`writer_release` event; the reader releases — its `n_pending` fetch-sub
is negative and its `readers_departing` fetch-sub yields zero, and the
event it posts is `reader_release`, which is not the event the writer
is waiting on. -/
theorem rwlock_last_reader_posts_reader_release :
    (rwlockLockWrite (rwlockLockRead rwlockInit).1).2 = some RwEvent.writerRelease ∧
    (rwlockUnlockRead (rwlockLockWrite (rwlockLockRead rwlockInit).1).1).1.nPending < 0 ∧
    (rwlockUnlockRead (rwlockLockWrite (rwlockLockRead rwlockInit).1).1).1.readersDeparting = 0 ∧
    (rwlockUnlockRead (rwlockLockWrite (rwlockLockRead rwlockInit).1).1).2 =
      some RwEvent.readerRelease ∧
    RwEvent.readerRelease ≠ RwEvent.writerRelease := by
  decide

/-- C9: when allocation of the deferred record fails, `gc_defer_destroy`
returns with the engine state unchanged — nothing is enqueued, the deleter
is not invoked (the invocation list is empty), and no error is reported
(the function's return type is `void`; the model has no error channel to
populate). -/
theorem gc_defer_destroy_alloc_failure_silent (gc : GcState) (obj : Nat) :
    gcDeferDestroy gc obj false = (gc, []) := by
  rfl

/-- C5: `list_push_front` and `list_push_back` release the write mutex
before returning, but `list_erase` returns from its unlink path with the
mutex still held, so the next mutation blocks forever (modelled by
`none`). -/
theorem rcu_list_erase_leaks_write_mutex :
    ((listPushFront rcuListNew 7).map (fun l => l.writeLockHeld) = some false) ∧
    ((listPushBack rcuListNew 7).map (fun l => l.writeLockHeld) = some false) ∧
    (((listPushFront rcuListNew 7).bind (fun l => listErase l l.head)).map
        (fun l => l.writeLockHeld) = some true) ∧
    (((listPushFront rcuListNew 7).bind (fun l => listErase l l.head)).bind
        (fun l => listPushFront l 9) = none) := by
  decide

/-- C7: `hashmap_remove` decrements `n_items` unconditionally.  On a fresh
map (no item present), removing any key returns `false` — yet `n_items`
is decremented, wrapping from 0 to `2 ^ 64 - 1`, instead of being left
unchanged. -/
theorem hashmap_remove_decrements_on_miss (hash : Nat → Nat) (key : Nat) :
    (hashmapRemove hash hashmapNew key).1 = false ∧
    (hashmapRemove hash hashmapNew key).2.nItems = 2 ^ 64 - 1 := by
  refine ⟨?_, ?_⟩
  · simp only [hashmapRemove, hashmapNew]
    rw [getD_get?_replicate]
    simp [bucketFindByKey]
  · simp only [hashmapRemove, hashmapNew]
    norm_num [atomicDecrement64]

/-- C4: on a fresh cuckoo map, `cuckoo_insert` with any non-zero key
returns `true` but — because the empty-slot path writes the key and value
into a local copy of the slot — leaves the map (both tables included)
unchanged, and `cuckoo_find` for that key afterwards returns `NULL`. -/
theorem cuckoo_insert_writes_local_copy (hash : Nat → Nat → Nat)
    (key : Nat) (value : Option Nat) (hkey : key ≠ 0) :
    cuckooInsert hash cuckooNew key value false = some (true, cuckooNew, none) ∧
    cuckooFind hash cuckooNew key = none := by
  have hk0 : (key == 0) = false := beq_eq_false_iff_ne.mpr hkey
  have hs0 : readSlot (cuckooNew.table 0)
      (cuckooIndex hash cuckooNew.tableCapacity key 0) = emptySlot :=
    getD_get?_replicate 16 _ emptySlot
  have hs1 : readSlot (cuckooNew.table 1)
      (cuckooIndex hash cuckooNew.tableCapacity key 1) = emptySlot :=
    getD_get?_replicate 16 _ emptySlot
  have hk0' : (emptySlot.key == key) = false := by
    simp [emptySlot, beq_eq_false_iff_ne]
    exact fun h => hkey h.symm
  refine ⟨?_, ?_⟩
  · simp [cuckooInsert, hk0, cuckooTryTables, hs0, emptySlot]
  · simp [cuckooFind, hk0, cuckooFindTables, hs0, hs1, hk0']

/-- Witness for C4 at a concrete hash, key and value. -/
theorem cuckoo_insert_writes_local_copy_witness :
    cuckooInsert (fun k i => k + i) cuckooNew 3 (some 9) false =
      some (true, cuckooNew, none) ∧
    cuckooFind (fun k i => k + i) cuckooNew 3 = none :=
  cuckoo_insert_writes_local_copy (fun k i => k + i) 3 (some 9) (by decide)

end Containers

namespace Containers

/-! ### Concrete artifacts for the flat-map claims -/

/-- A concrete 32-bit hash for the closed executions below (the claims
hold for the repository's Murmur3 equally: the failures exercised are
hash-independent, and the spec leaves the hash out of scope). -/
def truncHash (key : Nat) : Nat := key % 2 ^ 32

/-- Out-of-bounds valuation for in-bounds executions (never consulted). -/
def noOob : Nat → Cell := fun _ => emptyCell

/-- Out-of-bounds valuation under which every stray read observes
tombstone bytes. -/
def tombstoneOob : Nat → Cell := fun _ => { key := TOMBSTONE_KEY, value := none }

/-- The map produced by `flat_map_new(16, deleter)`: one page of 16
cells. -/
def flatMap16 : FlatMap :=
  { cells := List.replicate 16 emptyCell
    nPages := 1
    cellsPerPage := 16
    occupiedCells := 0 }

/-- The map produced by `flat_map_new(32, deleter)`: `n_pages = 16 / 32 =
0` pages of 32 cells. -/
def flatMap32 : FlatMap :=
  { cells := List.replicate 16 emptyCell
    nPages := 0
    cellsPerPage := 32
    occupiedCells := 0 }

/-- C3: the flat-map round trip fails for keys `≥ 2 ^ 32`.  On a fresh
`flat_map_new(16, deleter)` map, `flat_map_insert(m, 2^32, v, _)` returns
true and stores the full 64-bit key — but `flat_map_find(m, 2^32)`
passes the key through `find_at`'s `uint32_t` parameter, searches for the
truncated key `0`, and returns `NULL` instead of `v`. -/
theorem flat_map_find_truncates_key :
    flatMapNew 16 true = some flatMap16 ∧
    resultFlag (flatMapInsert truncHash noOob flatMap16 (2 ^ 32) (some 42)) =
      some true ∧
    (resultMap (flatMapInsert truncHash noOob flatMap16 (2 ^ 32) (some 42))).map
      (fun m => flatMapFind truncHash noOob m (2 ^ 32)) = some (.ok none) := by
  decide

/-- C6: the occupancy invariant fails on overwrite.  `insert_at` reports
`inserted` on the replace path as well, so `flat_map_insert` of an
already-present key increments `occupied_cells`: after inserting key 1
twice into a fresh `flat_map_new(16, deleter)` map, `occupied_cells = 2`
while only one cell is occupied-or-tombstone. -/
theorem flat_map_overwrite_inflates_occupied_cells :
    flatMapNew 16 true = some flatMap16 ∧
    ((resultMap (flatMapInsert truncHash noOob flatMap16 1 (some 10))).bind
      (fun m1 => resultMap (flatMapInsert truncHash noOob m1 1 (some 20)))).map
      (fun m2 => (m2.occupiedCells, m2.cells.countP isOccupiedOrTombstone)) =
      some (2, 1) := by
  decide

/-- C10: `flat_map_new` accepts every power-of-two `page_size` with a
non-null deleter; for `page_size = 32` the returned map has
`n_pages = 16 / 32 = 0`, and on that map `flat_map_insert` (no guard
intervening) reaches the probe advance `(page_index + 1) % n_pages` with
`n_pages = 0` — exhibited under the out-of-bounds valuation in which the
stray reads of the zero-length cell array observe tombstone bytes. -/
theorem flat_map_new_page_size_32_div_by_zero :
    (∀ pageSize : Nat, isPowerOfTwo pageSize = true →
      (flatMapNew pageSize true).isSome = true) ∧
    flatMapNew 32 true = some flatMap32 ∧
    flatMap32.nPages = 0 ∧
    flatMapInsert truncHash tombstoneOob flatMap32 1 (some 5) = .divByZero := by
  refine ⟨?_, by decide, by decide, by decide⟩
  intro pageSize hp
  simp [flatMapNew, hp]

/-- Witness for C10: `page_size = 32` is a power of two accepted by the
constructor. -/
theorem flat_map_new_page_size_32_div_by_zero_witness :
    (flatMapNew 32 true).isSome = true :=
  flat_map_new_page_size_32_div_by_zero.1 32 (by decide)

end Containers

namespace Containers

/-! ### The collection claims (C8) -/

/-- C8 counterexample: a deferred record whose generation equals the
argument of `gc_collect_through_generation` is *not* collected by that
call.  Defer object 5 at generation 0 on a fresh engine; the call
`gc_collect_through_generation(gc, 0)` (whose loop runs only while
`last_gc_gen < 0`) returns at once, invoking no deleter and leaving the
record — whose generation `0 ≤ 0` — in the queue. -/
theorem gc_collect_skips_target_generation :
    (gcDeferDestroy gcNew 5 true).1.deferred =
      [{ obj := 5, generation := 0 }] ∧
    gcCollectThroughGeneration (gcDeferDestroy gcNew 5 true).1 0 =
      .done (gcDeferDestroy gcNew 5 true).1 [] := by
  decide

/-- Records dropped by the drain loop of one collection iteration all
have generation strictly greater than the drained generation, provided
the queue is sorted by generation and holds no record older than `g`. -/
theorem dropWhile_generation_gt (g : Nat) (q : List DeferredRecord)
    (hsorted : q.Pairwise (fun a b => a.generation ≤ b.generation))
    (hge : ∀ d ∈ q, g ≤ d.generation) :
    ∀ d ∈ q.dropWhile (fun d => d.generation == g), g + 1 ≤ d.generation := by
  induction q with
  | nil => simp
  | cons a q ih =>
    rw [List.pairwise_cons] at hsorted
    rw [List.dropWhile_cons]
    by_cases hag : a.generation = g
    · simp only [hag, beq_self_eq_true, if_true]
      exact ih hsorted.2 (fun d hd => hge d (List.mem_cons_of_mem a hd))
    · have hgt : g + 1 ≤ a.generation :=
        Nat.lt_of_le_of_ne (hge a (List.mem_cons_self a q)) (fun h => hag h.symm)
      simp only [beq_eq_false_iff_ne.mpr hag, if_false]
      intro d hd
      rcases List.mem_cons.mp hd with h | h
      · exact h ▸ hgt
      · exact le_trans hgt (hsorted.1 d h)

/-- The loop of `gc_collect_through_generation`, specified: whenever the
loop (given enough fuel for one pass per pending generation) runs to
completion on a generation-sorted queue holding no record older than
`last_gc_gen`, it invokes the deleters of exactly the records with
generation strictly below the target, in queue order, and leaves exactly
the records with generation at least the target. -/
theorem collectLoop_spec (target : Nat) (fuel : Nat) :
    ∀ (gc gc' : GcState) (invoked : List Nat),
    target ≤ gc.lastGcGen + fuel →
    gc.deferred.Pairwise (fun a b => a.generation ≤ b.generation) →
    (∀ d ∈ gc.deferred, gc.lastGcGen ≤ d.generation) →
    collectLoop target gc fuel = .done gc' invoked →
    invoked = (gc.deferred.filter (fun d => decide (d.generation < target))).map
        (fun d => d.obj) ∧
    gc'.deferred = gc.deferred.filter (fun d => decide (target ≤ d.generation)) := by
  induction fuel with
  | zero =>
    intro gc gc' invoked hfuel _hsorted hge hdone
    simp only [collectLoop] at hdone
    cases hdone
    have h1 : gc.deferred.filter (fun d => decide (d.generation < target)) = [] := by
      rw [List.filter_eq_nil_iff]
      intro d hd
      simpa using Nat.not_lt.mpr (le_trans (by simpa using hfuel) (hge d hd))
    have h2 : gc.deferred.filter (fun d => decide (target ≤ d.generation)) =
        gc.deferred := by
      rw [List.filter_eq_self]
      intro d hd
      simpa using le_trans (by simpa using hfuel) (hge d hd)
    exact ⟨by rw [h1]; rfl, h2.symm⟩
  | succ fuel ih =>
    intro gc gc' invoked hfuel hsorted hge hdone
    simp only [collectLoop] at hdone
    by_cases hlt : gc.lastGcGen < target
    · rw [if_pos hlt] at hdone
      cases hfind : findRcByGeneration gc.lastGcGen gc.refCounts with
      | none => rw [hfind] at hdone; cases hdone
      | some rc =>
        rw [hfind] at hdone
        dsimp only at hdone
        by_cases hcount : 0 < rc.count
        · rw [if_pos hcount] at hdone; cases hdone
        · rw [if_neg hcount] at hdone
          simp only [drainGeneration] at hdone
          set p : DeferredRecord → Bool := fun d => d.generation == gc.lastGcGen with hp
          set gc₂ : GcState :=
            { gc with
              deferred := gc.deferred.dropWhile p
              refCounts := gc.refCounts.eraseP
                (fun rc => rc.generation == gc.lastGcGen)
              lastGcGen := gc.lastGcGen + 1 } with hgc₂
          cases hrec : collectLoop target gc₂ fuel with
          | blocked g => rw [hrec] at hdone; cases hdone
          | assertFail g => rw [hrec] at hdone; cases hdone
          | done gc₃ invoked₃ =>
            rw [hrec] at hdone
            dsimp only at hdone
            injection hdone with heqgc heqinv
            subst heqgc
            subst heqinv
            have hsorted₂ : gc₂.deferred.Pairwise
                (fun a b => a.generation ≤ b.generation) :=
              List.Pairwise.sublist (List.dropWhile_sublist p) hsorted
            have hge₂ : ∀ d ∈ gc₂.deferred, gc₂.lastGcGen ≤ d.generation :=
              dropWhile_generation_gt gc.lastGcGen gc.deferred hsorted hge
            have hfuel₂ : target ≤ gc₂.lastGcGen + fuel := by
              show target ≤ gc.lastGcGen + 1 + fuel
              omega
            obtain ⟨hinv₃, hdef₃⟩ := ih gc₂ gc₃ invoked₃ hfuel₂ hsorted₂ hge₂ hrec
            have hsplit := List.takeWhile_append_dropWhile p gc.deferred
            have htake : ∀ d ∈ gc.deferred.takeWhile p, d.generation = gc.lastGcGen :=
              fun d hd => by simpa [hp] using List.mem_takeWhile_imp hd
            have h1 : (gc.deferred.takeWhile p).filter
                (fun d => decide (d.generation < target)) = gc.deferred.takeWhile p :=
              List.filter_eq_self.mpr (fun d hd => by
                simp only [decide_eq_true_eq]
                rw [htake d hd]; exact hlt)
            have h0 : (gc.deferred.takeWhile p).filter
                (fun d => decide (target ≤ d.generation)) = [] :=
              List.filter_eq_nil_iff.mpr (fun d hd => by
                simp only [decide_eq_true_eq]
                rw [htake d hd]; omega)
            constructor
            · show (gc.deferred.takeWhile p).map (fun d => d.obj) ++ invoked₃ = _
              conv_rhs => rw [← hsplit, List.filter_append, List.map_append, h1]
              rw [hinv₃]
            · rw [hdef₃]
              conv_rhs => rw [← hsplit, List.filter_append, h0, List.nil_append]
    · rw [if_neg hlt] at hdone
      cases hdone
      have hle : target ≤ gc.lastGcGen := Nat.not_lt.mp hlt
      have h1 : gc.deferred.filter (fun d => decide (d.generation < target)) = [] := by
        rw [List.filter_eq_nil_iff]
        intro d hd
        simpa using Nat.not_lt.mpr (le_trans hle (hge d hd))
      have h2 : gc.deferred.filter (fun d => decide (target ≤ d.generation)) =
          gc.deferred := by
        rw [List.filter_eq_self]
        intro d hd
        simpa using le_trans hle (hge d hd)
      exact ⟨by rw [h1]; rfl, h2.symm⟩

/-- C8 (amended): `gc_collect_through_generation(gc, G)` collects exactly
the deferred records with generation *strictly below* `G`.  Whenever the
call runs to completion (every refcount it must wait on is already zero
and every refcount entry it looks up exists), it invokes the deleter of
each queued record with `last_gc_gen ≤ generation < G` exactly once — in
queue order — and leaves every record with generation `≥ G`, including
generation `G` itself, in the queue. -/
theorem gc_collect_invokes_below_target (gc gc' : GcState) (target : Nat)
    (invoked : List Nat)
    (hsorted : gc.deferred.Pairwise (fun a b => a.generation ≤ b.generation))
    (hge : ∀ d ∈ gc.deferred, gc.lastGcGen ≤ d.generation)
    (hdone : gcCollectThroughGeneration gc target = .done gc' invoked) :
    invoked = (gc.deferred.filter (fun d => decide (d.generation < target))).map
        (fun d => d.obj) ∧
    gc'.deferred = gc.deferred.filter (fun d => decide (target ≤ d.generation)) :=
  collectLoop_spec target (target - gc.lastGcGen) gc gc' invoked
    (by omega) hsorted hge hdone

/-- A concrete engine state for the C8 witness: generation advanced once,
object 5 deferred in generation 0 and object 7 in generation 1. -/
def gcPendingTwoGens : GcState :=
  { currentGeneration := 2
    lastGcGen := 0
    refCounts := [{ generation := 0, count := 0 }]
    deferred := [{ obj := 5, generation := 0 }, { obj := 7, generation := 1 }] }

/-- The state after `gc_collect_through_generation(gc, 1)` on
`gcPendingTwoGens`. -/
def gcPendingTwoGensAfter : GcState :=
  { currentGeneration := 2
    lastGcGen := 1
    refCounts := []
    deferred := [{ obj := 7, generation := 1 }] }

/-- Witness for C8 (amended) at a concrete state: collecting through
generation 1 invokes exactly the deleter of the generation-0 record and
leaves the generation-1 record queued. -/
theorem gc_collect_invokes_below_target_witness :
    ([5] : List Nat) =
      ((gcPendingTwoGens.deferred.filter
        (fun d => decide (d.generation < 1))).map (fun d => d.obj)) ∧
    gcPendingTwoGensAfter.deferred =
      gcPendingTwoGens.deferred.filter (fun d => decide (1 ≤ d.generation)) :=
  gc_collect_invokes_below_target gcPendingTwoGens gcPendingTwoGensAfter 1 [5]
    (by decide) (by decide) (by decide)

end Containers
